import Mathlib

/-!
Shallow embedding of the todo HTTP service in `main.go`: the data model, the
cache-aside read helper and the request handlers, rendered as pure functions
on an explicit application state (document store plus key-value cache).

Modelling conventions:
* `primitive.ObjectID` values are kept as their 24-character hexadecimal
  string representation; `time.Time` is a natural number of time units.
* The MongoDB collection is a `List Todo`; `InsertOne`, `FindOne`,
  `UpdateOne` (with `$set`) and `DeleteOne` are the usual first-match
  operations on that list.  Store operations are modelled as total: the
  claims under study concern the store-success paths (store failures map to
  500 responses in the code and no claim quantifies over them).
* The Redis cache is a partial map from string keys to serialized blobs.
  A blob is either the JSON serialization of a todo list, of a single todo,
  or opaque bytes that deserialize as neither.  A `none` lookup covers both
  a missing key and a failed retrieval, which the Go code treats alike
  (any non-nil error from `Get` falls through to the store).
* `http.ResponseWriter` semantics are modelled explicitly: the first
  `WriteHeader` wins, a `Write` before any `WriteHeader` commits status 200,
  and headers (here: `Location`) set after the status is committed have no
  effect on the wire, exactly as in `net/http`.
-/

/-- Mirrors the Go `Todo` struct (`main.go` lines 95-100). -/
structure Todo where
  id : String
  title : String
  completed : Bool
  createdAt : Nat
  deriving Repr, DecidableEq

/-- Mirrors `UpdateTodoRequest` (`main.go` lines 106-109): both fields are
optional pointers, absent fields decode to `none`. -/
structure UpdateTodoRequest where
  title : Option String
  completed : Option Bool
  deriving Repr, DecidableEq

/-- A serialized blob held in the cache or written verbatim to a response:
the JSON serialization of a todo list, of a single todo, or bytes that are
the serialization of neither (these fail deserialization into either type). -/
inductive JsonVal where
  | jlist (l : List Todo)
  | jtodo (t : Todo)
  | raw (s : String)
  deriving Repr, DecidableEq

/-- One write made to a response body: a JSON-encoded value or literal text. -/
inductive Chunk where
  | json (v : JsonVal)
  | text (s : String)
  deriving Repr, DecidableEq

/-- The observable HTTP response: committed status, body writes in order,
and the `Location` header as committed with the status. -/
structure Response where
  status : Option Nat
  body : List Chunk
  location : Option String
  deriving Repr, DecidableEq

/-- A fresh `http.ResponseWriter`: nothing committed yet. -/
def Response.empty : Response := ⟨none, [], none⟩

/-- Go `w.WriteHeader(code)`: only the first call commits a status. -/
def Response.writeHeader (r : Response) (code : Nat) : Response :=
  if r.status.isSome then r else { r with status := some code }

/-- Go `w.Write(...)`: commits status 200 when none is committed yet, then
appends to the body. -/
def Response.write (r : Response) (c : Chunk) : Response :=
  let r' := if r.status.isSome then r else { r with status := some 200 }
  { r' with body := r'.body ++ [c] }

/-- Go `http.Error(w, msg, code)`: `WriteHeader(code)` then `Fprintln(w, msg)`. -/
def Response.httpError (r : Response) (msg : String) (code : Nat) : Response :=
  (r.writeHeader code).write (.text (msg ++ "\n"))

/-- Go `http.Redirect(w, r, url, code)` for a non-GET request: the `Location`
header only reaches the wire when no status is committed yet, then
`WriteHeader(code)` (a no-op if already committed); no body is written for
POST requests. -/
def Response.redirect (r : Response) (url : String) (code : Nat) : Response :=
  let r' := if r.status.isSome then r else { r with location := some url }
  r'.writeHeader code

/-- Decides whether a character is an ASCII hexadecimal digit, as accepted by
Go's `encoding/hex`. -/
def hexDigit (c : Char) : Bool :=
  c.isDigit || ('a' ≤ c && c ≤ 'f') || ('A' ≤ c && c ≤ 'F')

/-- A well-formed `ObjectID` hex string: exactly 24 hexadecimal characters,
as required by `primitive.ObjectIDFromHex`. -/
def isValidObjectID (s : String) : Bool :=
  s.length == 24 && s.data.all hexDigit

/-- Mirrors `primitive.ObjectIDFromHex`: succeeds exactly on well-formed
24-character hex strings. -/
def objectIDFromHex (s : String) : Option String :=
  if isValidObjectID s then some s else none

/-- The hex form of `primitive.NilObjectID`, the zero value an ignored
`ObjectIDFromHex` error leaves behind. -/
def zeroObjectID : String := "000000000000000000000000"

/-- The Redis cache: a partial map from keys to serialized blobs.  A `none`
lookup models both an absent key and a failed retrieval. -/
def Cache : Type := String → Option JsonVal

/-- Redis `SET`. -/
def Cache.set (c : Cache) (k : String) (v : JsonVal) : Cache :=
  fun k' => if k' = k then some v else c k'

/-- Redis `DEL` on a list of keys. -/
def Cache.del (c : Cache) (ks : List String) : Cache :=
  fun k' => if k' ∈ ks then none else c k'

/-- The list-level cache key, `"todos:all"` in the code. -/
def listKey : String := "todos:all"

/-- The item-level cache key, `fmt.Sprintf("todo:%s", idStr)` in the code. -/
def itemKey (idStr : String) : String := "todo:" ++ idStr

/-- The state a handler acts on: the Mongo collection and the Redis cache. -/
structure AppState where
  store : List Todo
  cache : Cache

/-- Mongo `InsertOne`: appends the document. -/
def insertOne (docs : List Todo) (t : Todo) : List Todo := docs ++ [t]

/-- Mongo `FindOne` on an `_id` filter: the first document with that id. -/
def findOne (docs : List Todo) (objID : String) : Option Todo :=
  docs.find? (fun t => t.id == objID)

/-- Applies `f` to the first element satisfying `p`, the effect of Mongo
`UpdateOne` on the first matching document. -/
def updateFirst (p : Todo → Bool) (f : Todo → Todo) : List Todo → List Todo
  | [] => []
  | t :: ts => if p t then f t :: ts else t :: updateFirst p f ts

/-- The effect of the handler's `$set` document on the matched todo: fields
present in the request are overwritten, absent fields are untouched.  The
request type carries no identifier and no creation timestamp, so neither can
be written. -/
def applyUpdate (req : UpdateTodoRequest) (t : Todo) : Todo :=
  { t with title := req.title.getD t.title,
           completed := req.completed.getD t.completed }

/-- Descending order on creation timestamps, the
`bson.D{{Key: "createdAt", Value: -1}}` sort option. -/
def createdDesc (a b : Todo) : Prop := b.createdAt ≤ a.createdAt

instance : DecidableRel createdDesc := fun a b => Nat.decLe b.createdAt a.createdAt

instance : IsTotal Todo createdDesc := ⟨fun a b => Nat.le_total b.createdAt a.createdAt⟩

instance : IsTrans Todo createdDesc := ⟨fun _ _ _ hab hbc => Nat.le_trans hbc hab⟩

/-- Mongo `Find` with the descending `createdAt` sort: the collection's
documents ordered newest first (the order among equal timestamps is not
specified by the store and any sorted permutation is a faithful model). -/
def sortByCreatedAtDesc (docs : List Todo) : List Todo :=
  docs.insertionSort createdDesc

/-- Mirrors `cursor.All` decoding into a nil Go slice: with no matching
documents the slice stays nil (`none`); otherwise it holds the documents. -/
def cursorAll (docs : List Todo) : Option (List Todo) :=
  if docs = [] then none else some docs

/-- The `getAllTodos` helper (`main.go` lines 311-344): try the list cache
(cache misses, retrieval failures and blobs that do not deserialize as a todo
list all fall through), else fetch and sort from the store, replace a nil
slice by the empty slice, cache the result, and return it. -/
def getAllTodos (st : AppState) : List Todo × AppState :=
  match st.cache listKey with
  | some (.jlist todos) => (todos, st)
  | _ =>
    let sorted := sortByCreatedAtDesc st.store
    let todos := match cursorAll sorted with
      | none => ([] : List Todo)
      | some l => l
    (todos, { st with cache := st.cache.set listKey (.jlist todos) })

/-- The `listTodos` handler (`main.go` lines 364-376): encode the result of
`getAllTodos` (the store is total in this model, so the 500 branch for a
store failure is unreachable). -/
def listTodos (st : AppState) : Response × AppState :=
  let p := getAllTodos st
  (Response.empty.write (.json (.jlist p.1)), p.2)

/-- The parsed body of a `POST /todos` request: a form whose parse failed, a
form with its `title` value (empty when absent), a JSON body that failed to
decode, or a decoded `CreateTodoRequest` title (empty when absent). -/
inductive CreateInput where
  | formBad
  | form (title : String)
  | jsonBad
  | json (title : String)
  deriving Repr, DecidableEq

/-- The shared tail of `createTodo` after title extraction (`main.go` lines
400-429): reject an empty title, insert the new todo carrying the generated
identifier, a false completion flag and the current time, invalidate the
list-level cache entry, then redirect (form) or answer 201 with the created
representation (JSON). -/
def createTodoCore (st : AppState) (isForm : Bool) (title genID : String)
    (now : Nat) : Response × AppState :=
  if title = "" then
    (Response.empty.httpError "Title is required" 400, st)
  else
    let newTodo : Todo := ⟨genID, title, false, now⟩
    let st' : AppState :=
      { store := insertOne st.store newTodo,
        cache := st.cache.del [listKey] }
    if isForm then
      (Response.empty.redirect "/" 303, st')
    else
      ((Response.empty.writeHeader 201).write (.json (.jtodo newTodo)), st')

/-- The `createTodo` handler (`main.go` lines 378-430), parameterized by the
freshly generated `ObjectID` and the current time. -/
def createTodo (st : AppState) (input : CreateInput) (genID : String)
    (now : Nat) : Response × AppState :=
  match input with
  | .formBad => (Response.empty.httpError "Invalid form data" 400, st)
  | .jsonBad => (Response.empty.httpError "Invalid request body" 400, st)
  | .form title => createTodoCore st true title genID now
  | .json title => createTodoCore st false title genID now

/-- The `getTodo` handler (`main.go` lines 432-461): a cached blob under the
item key is written back verbatim, without deserialization; otherwise the
`ObjectIDFromHex` error is discarded (a malformed id degrades to the zero
id), the store is queried, a miss answers 404, and a hit is cached and
answered as JSON. -/
def getTodo (st : AppState) (idStr : String) : Response × AppState :=
  match st.cache (itemKey idStr) with
  | some v => (Response.empty.write (.json v), st)
  | none =>
    let objID := (objectIDFromHex idStr).getD zeroObjectID
    match findOne st.store objID with
    | none => (Response.empty.httpError "Todo not found" 404, st)
    | some todo =>
      (Response.empty.write (.json (.jtodo todo)),
       { st with cache := st.cache.set (itemKey idStr) (.jtodo todo) })

/-- The `updateTodo` handler (`main.go` lines 463-497): 400 on a malformed
identifier or undecodable body; the `$set` document collects exactly the
fields present in the request, and MongoDB rejects an update whose `$set`
document is empty, which surfaces as the handler's 500 branch; on success
the first matching document is updated, both cache entries are deleted, and
the handler answers 200 with a status body. -/
def updateTodo (st : AppState) (idStr : String)
    (body : Option UpdateTodoRequest) : Response × AppState :=
  match objectIDFromHex idStr with
  | none => (Response.empty.httpError "Invalid ID" 400, st)
  | some objID =>
    match body with
    | none => (Response.empty.httpError "Invalid body" 400, st)
    | some req =>
      if req.title = none ∧ req.completed = none then
        (Response.empty.httpError "Failed to update" 500, st)
      else
        let st' : AppState :=
          { store := updateFirst (fun t => t.id == objID) (applyUpdate req) st.store,
            cache := st.cache.del [listKey, itemKey idStr] }
        ((Response.empty.writeHeader 200).write (.text "\x7b\"status\":\"updated\"\x7d"), st')

/-- The body of `deleteTodo` (`main.go` lines 499-519), abstracted over the
response writer it receives, because `deleteTodoForm` invokes it on an
already-used writer: 400 on a malformed identifier, else delete the first
matching document (deleting nothing is not an error), delete both cache
entries, and answer 200 with a status body. -/
def deleteTodoSteps (st : AppState) (idStr : String) (r : Response) :
    Response × AppState :=
  match objectIDFromHex idStr with
  | none => (r.httpError "Invalid ID" 400, st)
  | some objID =>
    let st' : AppState :=
      { store := st.store.eraseP (fun t => t.id == objID),
        cache := st.cache.del [listKey, itemKey idStr] }
    ((r.writeHeader 200).write (.text "\x7b\"status\":\"deleted\"\x7d"), st')

/-- The `deleteTodo` handler. -/
def deleteTodo (st : AppState) (idStr : String) : Response × AppState :=
  deleteTodoSteps st idStr Response.empty

/-- The `deleteTodoForm` handler (`main.go` lines 522-547): it first calls
`app.deleteTodo(w, r)` on the same writer, then re-parses the identifier,
deletes again, deletes the cache entries again, and attempts a redirect on
the writer the inner call already committed. -/
def deleteTodoForm (st : AppState) (idStr : String) : Response × AppState :=
  let p := deleteTodoSteps st idStr Response.empty
  match objectIDFromHex idStr with
  | none => (p.1.httpError "Invalid ID" 400, p.2)
  | some objID =>
    let st' : AppState :=
      { store := p.2.store.eraseP (fun t => t.id == objID),
        cache := p.2.cache.del [listKey, itemKey idStr] }
    (p.1.redirect "/" 303, st')

/-- A read-only request: a list read (`GET /` or `GET /todos`) or a
single-item read (`GET /todos/{id}`).  These are the requests that may run
between a write and a later read without themselves writing to the store. -/
inductive ReadOp where
  | list
  | item (idStr : String)

/-- The state left behind by one read. -/
def runRead (st : AppState) (op : ReadOp) : AppState :=
  match op with
  | .list => (getAllTodos st).2
  | .item i => (getTodo st i).2

/-- The state left behind by a sequence of reads. -/
def runReads (st : AppState) : List ReadOp → AppState
  | [] => st
  | op :: ops => runReads (runRead st op) ops

/-- Every list result returned along a sequence of reads starting at `st`. -/
def listResultsAlong (st : AppState) : List ReadOp → List (List Todo)
  | [] => []
  | .list :: ops => (getAllTodos st).1 :: listResultsAlong (runRead st .list) ops
  | .item i :: ops => listResultsAlong (runRead st (.item i)) ops

/-! ### Basic facts about keys, identifiers and cache operations -/

theorem itemKey_ne_listKey (i : String) : itemKey i ≠ listKey := by
  intro h
  have h2 := congrArg String.data h
  rw [itemKey, String.data_append] at h2
  simp [listKey, String.data] at h2

theorem itemKey_inj {i j : String} (h : itemKey i = itemKey j) : i = j := by
  have h2 := congrArg String.data h
  rw [itemKey, itemKey, String.data_append, String.data_append] at h2
  exact String.ext (List.append_cancel_left h2)

theorem objectIDFromHex_valid {s : String} (h : isValidObjectID s = true) :
    objectIDFromHex s = some s := by
  simp [objectIDFromHex, h]

theorem objectIDFromHex_invalid {s : String} (h : isValidObjectID s = false) :
    objectIDFromHex s = none := by
  simp [objectIDFromHex, h]

theorem Cache.del_mem {c : Cache} {ks : List String} {k : String} (h : k ∈ ks) :
    c.del ks k = none := by
  simp [Cache.del, h]

theorem Cache.del_not_mem {c : Cache} {ks : List String} {k : String} (h : k ∉ ks) :
    c.del ks k = c k := by
  simp [Cache.del, h]

theorem Cache.set_self (c : Cache) (k : String) (v : JsonVal) : c.set k v k = some v := by
  simp [Cache.set]

theorem Cache.set_other {c : Cache} {k k' : String} (v : JsonVal) (h : k' ≠ k) :
    c.set k v k' = c k' := by
  simp [Cache.set, h]

/-! ### Characterizations of the read helper and the write handlers -/

theorem nil_slice_fix (l : List Todo) :
    (match cursorAll l with | none => ([] : List Todo) | some l' => l') = l := by
  by_cases h : l = [] <;> simp [cursorAll, h]

theorem getAllTodos_hit (st : AppState) {l : List Todo}
    (h : st.cache listKey = some (.jlist l)) : getAllTodos st = (l, st) := by
  simp [getAllTodos, h]

theorem getAllTodos_miss {st : AppState} (h : ∀ l, st.cache listKey ≠ some (.jlist l)) :
    getAllTodos st = (sortByCreatedAtDesc st.store,
      { st with cache := st.cache.set listKey (.jlist (sortByCreatedAtDesc st.store)) }) := by
  rcases hc : st.cache listKey with _ | v
  · simp [getAllTodos, hc, nil_slice_fix]
  · cases v with
    | jlist l => exact absurd hc (h l)
    | jtodo t => simp [getAllTodos, hc, nil_slice_fix]
    | raw s => simp [getAllTodos, hc, nil_slice_fix]

theorem getAllTodos_miss_fst {st : AppState}
    (h : ∀ l, st.cache listKey ≠ some (.jlist l)) :
    (getAllTodos st).1 = sortByCreatedAtDesc st.store := by
  rw [getAllTodos_miss h]

theorem getAllTodos_miss_snd {st : AppState}
    (h : ∀ l, st.cache listKey ≠ some (.jlist l)) :
    (getAllTodos st).2 =
      { st with cache := st.cache.set listKey (.jlist (sortByCreatedAtDesc st.store)) } := by
  rw [getAllTodos_miss h]

theorem updateTodo_success {st : AppState} {idStr : String} {req : UpdateTodoRequest}
    (hv : isValidObjectID idStr = true) (hne : ¬(req.title = none ∧ req.completed = none)) :
    updateTodo st idStr (some req) =
      ((Response.empty.writeHeader 200).write (.text "\x7b\"status\":\"updated\"\x7d"),
       { store := updateFirst (fun t => t.id == idStr) (applyUpdate req) st.store,
         cache := st.cache.del [listKey, itemKey idStr] }) := by
  simp [updateTodo, objectIDFromHex_valid hv, hne]

theorem deleteTodo_success {st : AppState} {idStr : String}
    (hv : isValidObjectID idStr = true) :
    deleteTodo st idStr =
      ((Response.empty.writeHeader 200).write (.text "\x7b\"status\":\"deleted\"\x7d"),
       { store := st.store.eraseP (fun t => t.id == idStr),
         cache := st.cache.del [listKey, itemKey idStr] }) := by
  simp [deleteTodo, deleteTodoSteps, objectIDFromHex_valid hv]

theorem deleteTodoForm_success {st : AppState} {idStr : String}
    (hv : isValidObjectID idStr = true) :
    (deleteTodoForm st idStr).2 =
      { store := (st.store.eraseP (fun t => t.id == idStr)).eraseP (fun t => t.id == idStr),
        cache := (st.cache.del [listKey, itemKey idStr]).del [listKey, itemKey idStr] } := by
  simp [deleteTodoForm, deleteTodoSteps, objectIDFromHex_valid hv]

/-! ### Facts about `updateFirst` and `eraseP` -/

theorem updateFirst_length (p : Todo → Bool) (f : Todo → Todo) (l : List Todo) :
    (updateFirst p f l).length = l.length := by
  induction l with
  | nil => rfl
  | cons t ts ih => cases h : p t <;> simp [updateFirst, h, ih]

theorem updateFirst_getElem? (p : Todo → Bool) (f : Todo → Todo) (l : List Todo)
    (i : Nat) :
    (updateFirst p f l)[i]? = l[i]? ∨
    ∃ t, l[i]? = some t ∧ p t = true ∧ (updateFirst p f l)[i]? = some (f t) := by
  induction l generalizing i with
  | nil => left; rfl
  | cons t ts ih =>
    cases h : p t
    · cases i with
      | zero => left; simp [updateFirst, h]
      | succ n =>
        rcases ih n with h1 | ⟨u, hu1, hu2, hu3⟩
        · left; simp [updateFirst, h, h1]
        · right; exact ⟨u, by simpa using hu1, hu2, by simp [updateFirst, h, hu3]⟩
    · cases i with
      | zero => right; exact ⟨t, by simp, h, by simp [updateFirst, h]⟩
      | succ n => left; simp [updateFirst, h]

theorem updateFirst_map_id (p : Todo → Bool) (f : Todo → Todo)
    (hf : ∀ t, (f t).id = t.id) (l : List Todo) :
    (updateFirst p f l).map Todo.id = l.map Todo.id := by
  induction l with
  | nil => rfl
  | cons t ts ih => cases h : p t <;> simp [updateFirst, h, ih, hf]

theorem applyUpdate_id (req : UpdateTodoRequest) (t : Todo) :
    (applyUpdate req t).id = t.id := rfl

theorem applyUpdate_createdAt (req : UpdateTodoRequest) (t : Todo) :
    (applyUpdate req t).createdAt = t.createdAt := rfl

theorem mem_updateFirst_completed {idv : String} {req : UpdateTodoRequest} {b : Bool}
    (hb : req.completed = some b) (l : List Todo)
    (hnd : (l.map Todo.id).Nodup) :
    ∀ t ∈ updateFirst (fun t => t.id == idv) (applyUpdate req) l,
      t.id = idv → t.completed = b := by
  induction l with
  | nil => intro t ht; simp [updateFirst] at ht
  | cons u us ih =>
    rw [List.map_cons, List.nodup_cons] at hnd
    intro t ht hid
    cases h : (u.id == idv) with
    | true =>
      rw [updateFirst, if_pos h] at ht
      rcases List.mem_cons.mp ht with rfl | hmem
      · simp [applyUpdate, hb]
      · exact absurd (List.mem_map.mpr ⟨t, hmem, (hid.trans (eq_of_beq h).symm)⟩) hnd.1
    | false =>
      rw [updateFirst, if_neg (by simp [h])] at ht
      rcases List.mem_cons.mp ht with rfl | hmem
      · exact absurd hid (by simpa using h)
      · exact ih hnd.2 t hmem hid

theorem eraseP_id_ne (idv : String) (l : List Todo)
    (hnd : (l.map Todo.id).Nodup) :
    ∀ t ∈ l.eraseP (fun t => t.id == idv), t.id ≠ idv := by
  induction l with
  | nil => intro t ht; simp at ht
  | cons u us ih =>
    rw [List.map_cons, List.nodup_cons] at hnd
    intro t ht hid
    cases h : (u.id == idv) with
    | true =>
      rw [List.eraseP_cons_of_pos (p := fun t : Todo => t.id == idv) h] at ht
      exact absurd (List.mem_map.mpr ⟨t, ht, (hid.trans (eq_of_beq h).symm)⟩) hnd.1
    | false =>
      rw [List.eraseP_cons_of_neg (p := fun t : Todo => t.id == idv) (by simp [h])] at ht
      rcases List.mem_cons.mp ht with rfl | hmem
      · exact absurd hid (by simpa using h)
      · exact ih hnd.2 t hmem hid

/-! ### Concrete sample data used by witnesses and counterexamples -/

/-- A well-formed 24-character hexadecimal identifier. -/
def sampleID : String := "0123456789abcdef01234567"

/-- A second well-formed identifier, distinct from `sampleID`. -/
def sampleID2 : String := "0123456789abcdef01234568"

/-- A cache with no entries. -/
def emptyCache : Cache := fun _ => none

/-- A concrete stored todo carrying `sampleID`. -/
def sampleTodo : Todo := ⟨sampleID, "task", false, 1⟩

/-- A concrete stored todo carrying `sampleID2`, created later. -/
def sampleTodo2 : Todo := ⟨sampleID2, "later", true, 9⟩

/-! ### Claim C2 — malformed identifiers -/

/-- Claim C2 as stated is false: `getTodo` discards the `ObjectIDFromHex`
error, so a `GET /todos/{id}` with the malformed identifier `"xyz"` answers
404 (the zero-identifier store lookup misses), not the claimed 400. -/
theorem c2_counterexample_get_malformed :
    isValidObjectID "xyz" = false ∧
    (getTodo ⟨[], emptyCache⟩ "xyz").1.status = some 404 := by
  constructor
  · decide
  · rfl

/-- Claim C2 (corrected): on a malformed `{id}` path segment, `PUT` and
`DELETE` answer 400 with an invalid-id error; `GET` does not validate the
identifier — it silently degrades it to the zero identifier, and (absent a
cache entry under the malformed key and a stored item with the zero
identifier) answers 404 rather than 400. -/
theorem c2_amended_malformed_id (st : AppState) (idStr : String)
    (body : Option UpdateTodoRequest)
    (hbad : isValidObjectID idStr = false) :
    (updateTodo st idStr body).1 = Response.empty.httpError "Invalid ID" 400 ∧
    (deleteTodo st idStr).1 = Response.empty.httpError "Invalid ID" 400 ∧
    (st.cache (itemKey idStr) = none → findOne st.store zeroObjectID = none →
      (getTodo st idStr).1 = Response.empty.httpError "Todo not found" 404) := by
  refine ⟨?_, ?_, fun hc hf => ?_⟩
  · simp [updateTodo, objectIDFromHex_invalid hbad]
  · simp [deleteTodo, deleteTodoSteps, objectIDFromHex_invalid hbad]
  · simp [getTodo, hc, objectIDFromHex_invalid hbad, hf]

/-- Witness for C2's amended theorem at the malformed identifier `"xyz"` on
the empty application state. -/
theorem c2_witness :
    (updateTodo ⟨[], emptyCache⟩ "xyz" none).1 = Response.empty.httpError "Invalid ID" 400 ∧
    (deleteTodo ⟨[], emptyCache⟩ "xyz").1 = Response.empty.httpError "Invalid ID" 400 ∧
    (getTodo ⟨[], emptyCache⟩ "xyz").1 = Response.empty.httpError "Todo not found" 404 := by
  have h := c2_amended_malformed_id ⟨[], emptyCache⟩ "xyz" none (by decide)
  exact ⟨h.1, h.2.1, h.2.2 rfl rfl⟩

/-! ### Claim C3 — cache invalidation on writes -/

/-- Claim C3 as stated is false for creation: `createTodo` deletes only the
list-level entry, so a pre-existing item-level entry under the created
identifier survives the write. -/
theorem c3_counterexample_create_keeps_item_entry :
    (createTodo ⟨[], fun k => if k = itemKey sampleID then some (.raw "stale") else none⟩
      (.json "buy milk") sampleID 5).2.cache (itemKey sampleID) = some (.raw "stale") := by
  decide

/-- Claim C3 (corrected): a successful update, delete or form-delete deletes
both the list-level entry and the item-level entry for the written
identifier before responding; a successful create deletes only the
list-level entry (no item-level entry under the freshly generated identifier
is expected to exist, and none is deleted). -/
theorem c3_amended_invalidation (st : AppState) (idStr : String)
    (req : UpdateTodoRequest) (title genID : String) (now : Nat)
    (hv : isValidObjectID idStr = true) :
    (¬(req.title = none ∧ req.completed = none) →
      (updateTodo st idStr (some req)).2.cache listKey = none ∧
      (updateTodo st idStr (some req)).2.cache (itemKey idStr) = none) ∧
    ((deleteTodo st idStr).2.cache listKey = none ∧
     (deleteTodo st idStr).2.cache (itemKey idStr) = none) ∧
    ((deleteTodoForm st idStr).2.cache listKey = none ∧
     (deleteTodoForm st idStr).2.cache (itemKey idStr) = none) ∧
    (title ≠ "" →
      (createTodo st (.json title) genID now).2.cache listKey = none ∧
      (createTodo st (.form title) genID now).2.cache listKey = none) := by
  refine ⟨fun hne => ⟨?_, ?_⟩, ⟨?_, ?_⟩, ⟨?_, ?_⟩, fun ht => ⟨?_, ?_⟩⟩
  · simp [updateTodo_success hv hne, Cache.del]
  · simp [updateTodo_success hv hne, Cache.del]
  · simp [deleteTodo_success hv, Cache.del]
  · simp [deleteTodo_success hv, Cache.del]
  · simp [deleteTodoForm_success hv, Cache.del]
  · simp [deleteTodoForm_success hv, Cache.del]
  · simp [createTodo, createTodoCore, ht, Cache.del]
  · simp [createTodo, createTodoCore, ht, Cache.del]

/-- Witness for C3's amended theorem: an update setting the completion flag,
a delete, a form-delete and two creations, all on concrete states. -/
theorem c3_witness :
    ((updateTodo ⟨[sampleTodo], emptyCache⟩ sampleID
        (some ⟨none, some true⟩)).2.cache listKey = none ∧
     (updateTodo ⟨[sampleTodo], emptyCache⟩ sampleID
        (some ⟨none, some true⟩)).2.cache (itemKey sampleID) = none) ∧
    ((deleteTodo ⟨[sampleTodo], emptyCache⟩ sampleID).2.cache listKey = none ∧
     (deleteTodo ⟨[sampleTodo], emptyCache⟩ sampleID).2.cache (itemKey sampleID) = none) ∧
    ((deleteTodoForm ⟨[sampleTodo], emptyCache⟩ sampleID).2.cache listKey = none ∧
     (deleteTodoForm ⟨[sampleTodo], emptyCache⟩ sampleID).2.cache (itemKey sampleID) = none) ∧
    ((createTodo ⟨[], emptyCache⟩ (.json "buy milk") sampleID 5).2.cache listKey = none ∧
     (createTodo ⟨[], emptyCache⟩ (.form "buy milk") sampleID 5).2.cache listKey = none) := by
  have h := c3_amended_invalidation ⟨[sampleTodo], emptyCache⟩ sampleID
    ⟨none, some true⟩ "buy milk" sampleID 5 (by decide)
  have h' := c3_amended_invalidation ⟨[], emptyCache⟩ sampleID
    ⟨none, some true⟩ "buy milk" sampleID 5 (by decide)
  exact ⟨h.1 (by simp), h.2.1, h.2.2.1, h'.2.2.2 (by simp)⟩

/-! ### Claim C4 — empty title on creation -/

/-- Claim C4 (confirmed): a `POST /todos` whose title is empty or missing —
via JSON or form encoding, a missing field decoding to the empty string —
answers 400 and leaves the application state (in particular the store)
exactly as it was. -/
theorem c4_empty_title_rejected (st : AppState) (genID : String) (now : Nat) :
    (createTodo st (.json "") genID now).1 = Response.empty.httpError "Title is required" 400 ∧
    (createTodo st (.json "") genID now).2 = st ∧
    (createTodo st (.form "") genID now).1 = Response.empty.httpError "Title is required" 400 ∧
    (createTodo st (.form "") genID now).2 = st := by
  refine ⟨?_, ?_, ?_, ?_⟩ <;> simp [createTodo, createTodoCore]

/-! ### Claim C6 — creation with a non-empty title -/

/-- Claim C6 as stated is false for form-encoded requests: a form `POST
/todos` with a non-empty title answers with a redirect carrying no body, so
the response contains no representation of the created item. -/
theorem c6_counterexample_form_create :
    (createTodo ⟨[], emptyCache⟩ (.form "buy milk") sampleID 5).1.status = some 303 ∧
    (createTodo ⟨[], emptyCache⟩ (.form "buy milk") sampleID 5).1.body = [] := by
  decide

/-- Claim C6 (corrected): a JSON `POST /todos` with a non-empty title answers
201 with the representation of the created item — the generated identifier,
the given title and a false completion flag — and the stored record is
exactly that representation; a form `POST /todos` stores the same record but
answers with a redirect to `/` and no representation. -/
theorem c6_amended_create (st : AppState) (title genID : String) (now : Nat)
    (h : title ≠ "") :
    (createTodo st (.json title) genID now).1 =
      (Response.empty.writeHeader 201).write (.json (.jtodo ⟨genID, title, false, now⟩)) ∧
    (createTodo st (.json title) genID now).2.store = st.store ++ [⟨genID, title, false, now⟩] ∧
    (createTodo st (.form title) genID now).1 = Response.empty.redirect "/" 303 ∧
    (createTodo st (.form title) genID now).2.store = st.store ++ [⟨genID, title, false, now⟩] := by
  refine ⟨?_, ?_, ?_, ?_⟩ <;> simp [createTodo, createTodoCore, h, insertOne]

/-- Witness for C6's amended theorem: creating `"buy milk"` on the empty
state via JSON and via the form. -/
theorem c6_witness :
    (createTodo ⟨[], emptyCache⟩ (.json "buy milk") sampleID 5).1 =
      (Response.empty.writeHeader 201).write
        (.json (.jtodo ⟨sampleID, "buy milk", false, 5⟩)) ∧
    (createTodo ⟨[], emptyCache⟩ (.json "buy milk") sampleID 5).2.store =
      [] ++ [⟨sampleID, "buy milk", false, 5⟩] ∧
    (createTodo ⟨[], emptyCache⟩ (.form "buy milk") sampleID 5).1 =
      Response.empty.redirect "/" 303 ∧
    (createTodo ⟨[], emptyCache⟩ (.form "buy milk") sampleID 5).2.store =
      [] ++ [⟨sampleID, "buy milk", false, 5⟩] :=
  c6_amended_create ⟨[], emptyCache⟩ "buy milk" sampleID 5 (by decide)

/-! ### Claim C8 — the form-delete alias -/

/-- Claim C8 is right about the intent and the code is wrong: the form
handler still invokes the JSON delete handler on the same writer before its
own deletion logic (its comments call that approach wrong and announce the
redirect as the better one), so the committed response of `POST
/todos/{id}/delete` on an existing item is status 200 with the JSON deleted
acknowledgement and no `Location` header — the attempted redirect never
reaches the wire — while the effect on the store matches `DELETE
/todos/{id}`. -/
theorem c8_form_delete_emits_json :
    (deleteTodoForm ⟨[sampleTodo], emptyCache⟩ sampleID).1 =
      { status := some 200,
        body := [Chunk.text "\x7b\"status\":\"deleted\"\x7d"],
        location := none } ∧
    (deleteTodoForm ⟨[sampleTodo], emptyCache⟩ sampleID).2.store =
      (deleteTodo ⟨[sampleTodo], emptyCache⟩ sampleID).2.store := by
  decide

/-! ### Claim C5 — cache failures on the read paths -/

/-- A cache holding, under the item key for `sampleID`, a blob that is not
the serialization of a todo. -/
def garbageItemCache : Cache :=
  fun k => if k = itemKey sampleID then some (.raw "garbage") else none

/-- Claim C5 as stated is false for single-item reads: with a cached blob
that fails deserialization under the item key, `getTodo` does not fall back
to the store — it serves the blob verbatim (here the store holds the item,
but the response carries the garbage bytes, not the store's record, and the
state is untouched). -/
theorem c5_counterexample_item_read_serves_garbage :
    findOne [sampleTodo] sampleID = some sampleTodo ∧
    (getTodo ⟨[sampleTodo], garbageItemCache⟩ sampleID).1 =
      Response.empty.write (.json (.raw "garbage")) ∧
    Response.empty.write (.json (.raw "garbage")) ≠
      Response.empty.write (.json (.jtodo sampleTodo)) ∧
    (getTodo ⟨[sampleTodo], garbageItemCache⟩ sampleID).2 =
      ⟨[sampleTodo], garbageItemCache⟩ := by
  refine ⟨by decide, ?_, by decide, ?_⟩ <;> rfl

/-- Claim C5 (corrected): the list read treats a failed retrieval and a blob
that fails deserialization alike as misses and returns the store's (sorted)
result; the single-item read treats a failed retrieval as a miss and falls
back to the store, but serves any retrieved blob verbatim without
deserializing it; in every case the response to a cache failure is the
non-error response determined above, never an error caused by the cache. -/
theorem c5_amended_cache_failures (st : AppState) (idStr : String) :
    ((∀ l, st.cache listKey ≠ some (.jlist l)) →
      (getAllTodos st).1 = sortByCreatedAtDesc st.store ∧
      (listTodos st).1 =
        Response.empty.write (.json (.jlist (sortByCreatedAtDesc st.store)))) ∧
    (st.cache (itemKey idStr) = none →
      (∀ t, findOne st.store ((objectIDFromHex idStr).getD zeroObjectID) = some t →
        (getTodo st idStr).1 = Response.empty.write (.json (.jtodo t))) ∧
      (findOne st.store ((objectIDFromHex idStr).getD zeroObjectID) = none →
        (getTodo st idStr).1 = Response.empty.httpError "Todo not found" 404)) ∧
    (∀ v, st.cache (itemKey idStr) = some v →
      (getTodo st idStr).1 = Response.empty.write (.json v)) := by
  refine ⟨fun hm => ⟨?_, ?_⟩, fun hc => ⟨fun t ht => ?_, fun hn => ?_⟩, fun v hv => ?_⟩
  · rw [getAllTodos_miss hm]
  · simp [listTodos, getAllTodos_miss hm]
  · simp [getTodo, hc, ht]
  · simp [getTodo, hc, hn]
  · simp [getTodo, hv]

/-- Witness for C5's amended theorem: a list read and an item read on an
empty cache fall back to the store, and an item read on a garbage blob
serves it verbatim with a 200. -/
theorem c5_witness :
    (getAllTodos ⟨[sampleTodo], emptyCache⟩).1 = sortByCreatedAtDesc [sampleTodo] ∧
    (getTodo ⟨[sampleTodo], emptyCache⟩ sampleID).1 =
      Response.empty.write (.json (.jtodo sampleTodo)) ∧
    (getTodo ⟨[sampleTodo], garbageItemCache⟩ sampleID).1 =
      Response.empty.write (.json (.raw "garbage")) := by
  have h1 := c5_amended_cache_failures ⟨[sampleTodo], emptyCache⟩ sampleID
  have h2 := c5_amended_cache_failures ⟨[sampleTodo], garbageItemCache⟩ sampleID
  exact ⟨(h1.1 (fun l h => by simp [emptyCache] at h)).1,
         (h1.2.1 rfl).1 sampleTodo (by decide),
         h2.2.2 (.raw "garbage") (by decide)⟩

/-! ### Claim C9 — the frame of a successful update -/

/-- The frame condition one slot of the store satisfies across an update
with request `req` on identifier `idStr`: identifier and creation timestamp
are unchanged, fields absent from the request are unchanged, items with a
different identifier are unchanged entirely, and the slot is either
untouched or exactly the partial update of its old value. -/
def frameAt (req : UpdateTodoRequest) (idStr : String) (old new : Todo) : Prop :=
  new.id = old.id ∧ new.createdAt = old.createdAt ∧
  (req.title = none → new.title = old.title) ∧
  (req.completed = none → new.completed = old.completed) ∧
  (old.id ≠ idStr → new = old) ∧
  (new = old ∨ new = applyUpdate req old)

/-- Lifts `frameAt` to the optional results of indexing the store before and
after the update; out-of-range slots must be out of range on both sides. -/
def frameAtOpt (req : UpdateTodoRequest) (idStr : String) :
    Option Todo → Option Todo → Prop
  | some old, some new => frameAt req idStr old new
  | none, none => True
  | _, _ => False

/-- Each slot of the store satisfies the frame condition across
`updateFirst` with the handler's predicate and `$set` effect. -/
theorem updateFirst_frame (req : UpdateTodoRequest) (idStr : String)
    (l : List Todo) (i : Nat) :
    frameAtOpt req idStr (l[i]?)
      ((updateFirst (fun t => t.id == idStr) (applyUpdate req) l)[i]?) := by
  rcases updateFirst_getElem? (fun t => t.id == idStr) (applyUpdate req) l i
    with h | ⟨t, h1, h2, h3⟩
  · rw [h]
    cases ho : l[i]? with
    | none => exact trivial
    | some old =>
      exact ⟨rfl, rfl, fun _ => rfl, fun _ => rfl, fun _ => rfl, Or.inl rfl⟩
  · rw [h1, h3]
    refine ⟨rfl, rfl, fun hn => ?_, fun hn => ?_, fun hne' => ?_, Or.inr rfl⟩
    · simp [applyUpdate, hn]
    · simp [applyUpdate, hn]
    · exact absurd (eq_of_beq h2) hne'

/-- Claim C9 (confirmed): a successful `PUT /todos/{id}` preserves the store
length and every slot satisfies the frame condition — only fields present in
the request change, the identifier and creation timestamp (which no update
request can carry) are unchanged, and items with a different identifier are
untouched. -/
theorem c9_update_frame (st : AppState) (idStr : String) (req : UpdateTodoRequest)
    (hv : isValidObjectID idStr = true)
    (hne : ¬(req.title = none ∧ req.completed = none)) :
    (updateTodo st idStr (some req)).2.store.length = st.store.length ∧
    ∀ i : Nat, frameAtOpt req idStr (st.store[i]?)
      ((updateTodo st idStr (some req)).2.store[i]?) := by
  rw [updateTodo_success hv hne]
  exact ⟨updateFirst_length _ _ _, fun i => updateFirst_frame req idStr st.store i⟩

/-- Witness for C9 on a two-item store: completing `sampleTodo` leaves both
slots satisfying the frame condition. -/
theorem c9_witness :
    (updateTodo ⟨[sampleTodo, sampleTodo2], emptyCache⟩ sampleID
      (some ⟨none, some true⟩)).2.store.length = 2 ∧
    frameAtOpt ⟨none, some true⟩ sampleID (some sampleTodo)
      ((updateTodo ⟨[sampleTodo, sampleTodo2], emptyCache⟩ sampleID
        (some ⟨none, some true⟩)).2.store[0]?) ∧
    frameAtOpt ⟨none, some true⟩ sampleID (some sampleTodo2)
      ((updateTodo ⟨[sampleTodo, sampleTodo2], emptyCache⟩ sampleID
        (some ⟨none, some true⟩)).2.store[1]?) := by
  have h := c9_update_frame ⟨[sampleTodo, sampleTodo2], emptyCache⟩ sampleID
    ⟨none, some true⟩ (by decide) (by simp)
  exact ⟨h.1, h.2 0, h.2 1⟩

/-! ### Claim C10 — store-served list reads -/

/-- Claim C10 (confirmed): a list read served from the store returns a
permutation of the store's items sorted by creation timestamp descending,
returns the empty list (encoded as a JSON array, never a JSON null, thanks
to the nil-slice fix) when the store is empty, caches exactly what it
returned, and a subsequent cache-served read returns the same list; the
HTTP body encodes that list as a JSON array. -/
theorem c10_list_from_store (st : AppState)
    (hmiss : ∀ l, st.cache listKey ≠ some (.jlist l)) :
    ((getAllTodos st).1).Perm st.store ∧
    List.Sorted createdDesc (getAllTodos st).1 ∧
    (st.store = [] → (getAllTodos st).1 = []) ∧
    (getAllTodos st).2.cache listKey = some (.jlist (getAllTodos st).1) ∧
    (getAllTodos (getAllTodos st).2).1 = (getAllTodos st).1 ∧
    (listTodos st).1 = Response.empty.write (.json (.jlist (getAllTodos st).1)) := by
  refine ⟨?_, ?_, fun he => ?_, ?_, ?_, ?_⟩
  · rw [getAllTodos_miss_fst hmiss]
    exact List.perm_insertionSort createdDesc st.store
  · rw [getAllTodos_miss_fst hmiss]
    exact List.sorted_insertionSort createdDesc st.store
  · rw [getAllTodos_miss_fst hmiss, he]
    rfl
  · rw [getAllTodos_miss_snd hmiss, getAllTodos_miss_fst hmiss]
    simp [Cache.set]
  · rw [getAllTodos_miss_snd hmiss, getAllTodos_miss_fst hmiss]
    rw [getAllTodos_hit { st with cache := st.cache.set listKey (.jlist (sortByCreatedAtDesc st.store)) } (show (st.cache.set listKey (.jlist (sortByCreatedAtDesc st.store))) listKey = some (.jlist (sortByCreatedAtDesc st.store)) from Cache.set_self _ _ _)]
  · rfl

/-- Witness for C10 on a concrete two-item store with an empty cache. -/
theorem c10_witness :
    ((getAllTodos ⟨[sampleTodo, sampleTodo2], emptyCache⟩).1).Perm
      [sampleTodo, sampleTodo2] ∧
    List.Sorted createdDesc (getAllTodos ⟨[sampleTodo, sampleTodo2], emptyCache⟩).1 ∧
    (getAllTodos ⟨[sampleTodo, sampleTodo2], emptyCache⟩).2.cache listKey =
      some (.jlist (getAllTodos ⟨[sampleTodo, sampleTodo2], emptyCache⟩).1) ∧
    (getAllTodos (getAllTodos ⟨[sampleTodo, sampleTodo2], emptyCache⟩).2).1 =
      (getAllTodos ⟨[sampleTodo, sampleTodo2], emptyCache⟩).1 := by
  have h := c10_list_from_store ⟨[sampleTodo, sampleTodo2], emptyCache⟩
    (fun l h => by simp [emptyCache] at h)
  exact ⟨h.1, h.2.1, h.2.2.2.1, h.2.2.2.2.1⟩

/-! ### How reads affect the state -/

theorem getAllTodos_store (st : AppState) : (getAllTodos st).2.store = st.store := by
  rcases hc : st.cache listKey with _ | v
  · simp [getAllTodos, hc]
  · cases v <;> simp [getAllTodos, hc]

theorem getAllTodos_cache_other (st : AppState) (k : String) (hk : k ≠ listKey) :
    (getAllTodos st).2.cache k = st.cache k := by
  rcases hc : st.cache listKey with _ | v
  · simp [getAllTodos, hc, Cache.set, hk]
  · cases v <;> simp [getAllTodos, hc, Cache.set, hk]

theorem getAllTodos_cache_listKey (st : AppState) :
    (getAllTodos st).2.cache listKey = st.cache listKey ∨
    (getAllTodos st).2.cache listKey = some (.jlist (sortByCreatedAtDesc st.store)) := by
  rcases hc : st.cache listKey with _ | v
  · right; simp [getAllTodos, hc, Cache.set, nil_slice_fix]
  · cases v with
    | jlist l => left; rw [getAllTodos_hit st hc]; exact hc
    | jtodo t => right; simp [getAllTodos, hc, Cache.set, nil_slice_fix]
    | raw s => right; simp [getAllTodos, hc, Cache.set, nil_slice_fix]

theorem getTodo_store (st : AppState) (i : String) : (getTodo st i).2.store = st.store := by
  rcases hc : st.cache (itemKey i) with _ | v
  · rcases hf : findOne st.store ((objectIDFromHex i).getD zeroObjectID) with _ | t
    · simp [getTodo, hc, hf]
    · simp [getTodo, hc, hf]
  · simp [getTodo, hc]

theorem getTodo_cache_other (st : AppState) (i k : String) (hk : k ≠ itemKey i) :
    (getTodo st i).2.cache k = st.cache k := by
  rcases hc : st.cache (itemKey i) with _ | v
  · rcases hf : findOne st.store ((objectIDFromHex i).getD zeroObjectID) with _ | t
    · simp [getTodo, hc, hf]
    · simp [getTodo, hc, hf, Cache.set, hk]
  · simp [getTodo, hc]

theorem getTodo_cache_self (st : AppState) (i : String) :
    (getTodo st i).2.cache (itemKey i) = st.cache (itemKey i) ∨
    ∃ u, findOne st.store ((objectIDFromHex i).getD zeroObjectID) = some u ∧
      (getTodo st i).2.cache (itemKey i) = some (.jtodo u) := by
  rcases hc : st.cache (itemKey i) with _ | v
  · rcases hf : findOne st.store ((objectIDFromHex i).getD zeroObjectID) with _ | u
    · left; simp [getTodo, hc, hf]
    · right; exact ⟨u, rfl, by simp [getTodo, hc, hf, Cache.set]⟩
  · left; simp [getTodo, hc]

theorem runRead_store (st : AppState) (op : ReadOp) : (runRead st op).store = st.store := by
  cases op with
  | list => exact getAllTodos_store st
  | item i => exact getTodo_store st i

/-! ### Claim C7 — updates are visible to subsequent item reads -/

/-- The invariant C7 rests on: the store holds an item with identifier
`idStr`, every stored item with that identifier carries completion flag `b`,
and any cached blob under the item key for `idStr` is the serialization of a
todo with that identifier and flag. -/
def itemInv (idStr : String) (b : Bool) (st : AppState) : Prop :=
  (∃ t ∈ st.store, t.id = idStr) ∧
  (∀ t ∈ st.store, t.id = idStr → t.completed = b) ∧
  (∀ v, st.cache (itemKey idStr) = some v →
    ∃ t, v = .jtodo t ∧ t.id = idStr ∧ t.completed = b)

theorem getTodo_item_flag {idStr : String} {b : Bool} {st : AppState}
    (hv : isValidObjectID idStr = true) (h : itemInv idStr b st) :
    ∃ t, (getTodo st idStr).1 = Response.empty.write (.json (.jtodo t)) ∧
      t.id = idStr ∧ t.completed = b := by
  obtain ⟨hex, hstore, hcache⟩ := h
  rcases hc : st.cache (itemKey idStr) with _ | v
  · have hobj : (objectIDFromHex idStr).getD zeroObjectID = idStr := by
      rw [objectIDFromHex_valid hv]; rfl
    have hsome : (st.store.find? (fun t => t.id == idStr)).isSome := by
      rcases hex with ⟨t0, ht0, hid0⟩
      exact List.find?_isSome.mpr ⟨t0, ht0, beq_iff_eq.mpr hid0⟩
    rcases Option.isSome_iff_exists.mp hsome with ⟨u, hu⟩
    have hpu := List.find?_some hu
    simp only [beq_iff_eq] at hpu
    have huid : u.id = idStr := hpu
    have humem : u ∈ st.store := List.mem_of_find?_eq_some hu
    have hfind : findOne st.store ((objectIDFromHex idStr).getD zeroObjectID) = some u := by
      rw [hobj]; exact hu
    exact ⟨u, by simp [getTodo, hc, hfind], huid, hstore u humem huid⟩
  · rcases hcache v hc with ⟨t, rfl, hid, hb⟩
    exact ⟨t, by simp [getTodo, hc], hid, hb⟩

theorem itemInv_runRead {idStr : String} {b : Bool} {st : AppState}
    (hv : isValidObjectID idStr = true)
    (h : itemInv idStr b st) (op : ReadOp) : itemInv idStr b (runRead st op) := by
  obtain ⟨hex, hstore, hcache⟩ := h
  cases op with
  | list =>
    refine ⟨?_, ?_, ?_⟩
    · rw [runRead, getAllTodos_store]; exact hex
    · rw [runRead, getAllTodos_store]; exact hstore
    · intro v hv'
      rw [runRead, getAllTodos_cache_other st _ (itemKey_ne_listKey idStr)] at hv'
      exact hcache v hv'
  | item i =>
    refine ⟨?_, ?_, ?_⟩
    · rw [runRead, getTodo_store]; exact hex
    · rw [runRead, getTodo_store]; exact hstore
    · by_cases hk : itemKey idStr = itemKey i
      · intro v hv'
        rw [runRead, hk] at hv'
        rcases getTodo_cache_self st i with he | ⟨u, hfind, he⟩
        · rw [he, ← hk] at hv'
          exact hcache v hv'
        · rw [he] at hv'
          have hii : i = idStr := (itemKey_inj hk).symm
          rw [hii, objectIDFromHex_valid hv, Option.getD_some] at hfind
          have hpu := List.find?_some hfind
          simp only [beq_iff_eq] at hpu
          have huid : u.id = idStr := hpu
          have humem : u ∈ st.store := List.mem_of_find?_eq_some hfind
          rcases Option.some.inj hv' with rfl
          exact ⟨u, rfl, huid, hstore u humem huid⟩
      · intro v hv'
        rw [runRead, getTodo_cache_other st i _ hk] at hv'
        exact hcache v hv'

theorem itemInv_runReads {idStr : String} {b : Bool}
    (hv : isValidObjectID idStr = true) :
    ∀ (ops : List ReadOp) (st : AppState), itemInv idStr b st →
      itemInv idStr b (runReads st ops) := by
  intro ops
  induction ops with
  | nil => intro st h; exact h
  | cons op ops ih => intro st h; exact ih _ (itemInv_runRead hv h op)

theorem itemInv_after_update {st : AppState} {idStr : String}
    {req : UpdateTodoRequest} {b : Bool}
    (hv : isValidObjectID idStr = true) (hnd : (st.store.map Todo.id).Nodup)
    (hex : ∃ t ∈ st.store, t.id = idStr) (hb : req.completed = some b) :
    itemInv idStr b (updateTodo st idStr (some req)).2 := by
  have hne : ¬(req.title = none ∧ req.completed = none) := by
    intro h
    rw [hb] at h
    exact Option.noConfusion h.2
  rw [updateTodo_success hv hne]
  refine ⟨?_, mem_updateFirst_completed hb st.store hnd, ?_⟩
  · rcases hex with ⟨t0, hmem, hid⟩
    have hmap := updateFirst_map_id (fun t => t.id == idStr) (applyUpdate req)
      (fun t => rfl) st.store
    have hin : idStr ∈ (updateFirst (fun t => t.id == idStr)
        (applyUpdate req) st.store).map Todo.id := by
      rw [hmap]
      exact List.mem_map.mpr ⟨t0, hmem, hid⟩
    rcases List.mem_map.mp hin with ⟨u, humem, huid⟩
    exact ⟨u, humem, huid⟩
  · intro v hv'
    simp [Cache.del] at hv'

/-- Claim C7 (confirmed): after a successful `PUT /todos/{id}` whose body
sets the completion flag to `b` on an item present in the store, every
subsequent `GET /todos/{id}` — after any interleaving of list and item
reads, so whether the answer comes from the cache or from the store —
returns a representation of the item carrying the identifier and the new
flag `b`. -/
theorem c7_update_then_get (st : AppState) (idStr : String)
    (req : UpdateTodoRequest) (b : Bool)
    (hv : isValidObjectID idStr = true)
    (hnd : (st.store.map Todo.id).Nodup)
    (hex : ∃ t ∈ st.store, t.id = idStr)
    (hb : req.completed = some b) :
    ∀ ops : List ReadOp,
      ∃ t, (getTodo (runReads (updateTodo st idStr (some req)).2 ops) idStr).1
          = Response.empty.write (.json (.jtodo t)) ∧
        t.id = idStr ∧ t.completed = b := by
  intro ops
  exact getTodo_item_flag hv (itemInv_runReads hv ops _ (itemInv_after_update hv hnd hex hb))

/-- Witness for C7: completing the sample item and reading it back through
an item read and a list read still answers 200. -/
theorem c7_witness :
    (getTodo (runReads (updateTodo ⟨[sampleTodo], emptyCache⟩ sampleID
        (some ⟨none, some true⟩)).2 [ReadOp.item sampleID, ReadOp.list])
      sampleID).1.status = some 200 := by
  rcases c7_update_then_get ⟨[sampleTodo], emptyCache⟩ sampleID ⟨none, some true⟩ true
      (by decide) (by decide) ⟨sampleTodo, by simp, rfl⟩ rfl
      [ReadOp.item sampleID, ReadOp.list] with ⟨t, h1, h2, h3⟩
  rw [h1]
  rfl

/-! ### Claim C1 — deletion and subsequent list reads -/

/-- The invariant C1 rests on: no stored item carries identifier `idv`, and
any cached list blob under the list key contains no item with that
identifier. -/
def absentInv (idv : String) (st : AppState) : Prop :=
  (∀ t ∈ st.store, t.id ≠ idv) ∧
  (∀ l, st.cache listKey = some (.jlist l) → ∀ t ∈ l, t.id ≠ idv)

theorem absentInv_list_result {idv : String} {st : AppState}
    (h : absentInv idv st) : ∀ t ∈ (getAllTodos st).1, t.id ≠ idv := by
  obtain ⟨hstore, hcache⟩ := h
  have hsorted : ∀ t ∈ sortByCreatedAtDesc st.store, t.id ≠ idv := fun t ht =>
    hstore t ((List.perm_insertionSort createdDesc st.store).mem_iff.mp ht)
  rcases hc : st.cache listKey with _ | v
  · simpa [getAllTodos, hc, nil_slice_fix] using hsorted
  · cases v with
    | jlist l =>
      rw [getAllTodos_hit st hc]
      exact hcache l hc
    | jtodo t => simpa [getAllTodos, hc, nil_slice_fix] using hsorted
    | raw s => simpa [getAllTodos, hc, nil_slice_fix] using hsorted

theorem absentInv_runRead {idv : String} {st : AppState}
    (h : absentInv idv st) (op : ReadOp) : absentInv idv (runRead st op) := by
  obtain ⟨hstore, hcache⟩ := h
  cases op with
  | list =>
    refine ⟨?_, ?_⟩
    · rw [runRead, getAllTodos_store]; exact hstore
    · intro l hl
      rcases getAllTodos_cache_listKey st with he | he
      · rw [runRead, he] at hl
        exact hcache l hl
      · rw [runRead, he] at hl
        have hls : sortByCreatedAtDesc st.store = l := by simpa using hl
        intro t ht
        rw [← hls] at ht
        exact hstore t ((List.perm_insertionSort createdDesc st.store).mem_iff.mp ht)
  | item i =>
    refine ⟨?_, ?_⟩
    · rw [runRead, getTodo_store]; exact hstore
    · intro l hl
      rw [runRead, getTodo_cache_other st i listKey (Ne.symm (itemKey_ne_listKey i))] at hl
      exact hcache l hl

theorem absentInv_listResultsAlong {idv : String} :
    ∀ (ops : List ReadOp) (st : AppState), absentInv idv st →
      ∀ l ∈ listResultsAlong st ops, ∀ t ∈ l, t.id ≠ idv := by
  intro ops
  induction ops with
  | nil =>
    intro st h l hl
    simp [listResultsAlong] at hl
  | cons op ops ih =>
    intro st h l hl
    cases op with
    | list =>
      rw [listResultsAlong] at hl
      rcases List.mem_cons.mp hl with rfl | hmem
      · exact absentInv_list_result h
      · exact ih _ (absentInv_runRead h .list) l hmem
    | item i =>
      rw [listResultsAlong] at hl
      exact ih _ (absentInv_runRead h (.item i)) l hl

theorem absentInv_after_delete {st : AppState} {idStr : String}
    (hv : isValidObjectID idStr = true) (hnd : (st.store.map Todo.id).Nodup) :
    absentInv idStr (deleteTodo st idStr).2 := by
  rw [deleteTodo_success hv]
  refine ⟨eraseP_id_ne idStr st.store hnd, ?_⟩
  intro l hl
  simp [Cache.del] at hl

/-- Claim C1 as stated is false in its 404 half: `deleteTodo` ignores the
store's deleted count, so deleting a well-formed identifier that matches no
item still answers 200 with the deleted acknowledgement, not 404. -/
theorem c1_counterexample_delete_nonexistent :
    isValidObjectID sampleID = true ∧
    findOne ([] : List Todo) sampleID = none ∧
    (deleteTodo ⟨[], emptyCache⟩ sampleID).1.status = some 200 := by
  refine ⟨by decide, rfl, rfl⟩

/-- Claim C1 (corrected): a `DELETE /todos/{id}` with a well-formed
identifier always answers 200 with the deleted acknowledgement, whether or
not an item matches (the handler does not report 404 for a missing item);
and afterwards no list read — across any interleaving of list and item
reads, cache-served or store-served — returns an item with the deleted
identifier. -/
theorem c1_amended_delete (st : AppState) (idStr : String)
    (hv : isValidObjectID idStr = true)
    (hnd : (st.store.map Todo.id).Nodup) :
    (deleteTodo st idStr).1 =
      (Response.empty.writeHeader 200).write (.text "\x7b\"status\":\"deleted\"\x7d") ∧
    ∀ ops : List ReadOp, ∀ l ∈ listResultsAlong (deleteTodo st idStr).2 ops,
      ∀ t ∈ l, t.id ≠ idStr := by
  refine ⟨by rw [deleteTodo_success hv], fun ops =>
    absentInv_listResultsAlong ops _ (absentInv_after_delete hv hnd)⟩

/-- Witness for C1: deleting the sample item answers 200, and the list read
that follows no longer contains it. -/
theorem c1_witness :
    (deleteTodo ⟨[sampleTodo], emptyCache⟩ sampleID).1 =
      (Response.empty.writeHeader 200).write (.text "\x7b\"status\":\"deleted\"\x7d") ∧
    sampleTodo ∉ (getAllTodos (deleteTodo ⟨[sampleTodo], emptyCache⟩ sampleID).2).1 := by
  have h := c1_amended_delete ⟨[sampleTodo], emptyCache⟩ sampleID (by decide) (by decide)
  exact ⟨h.1, fun hmem => h.2 [ReadOp.list] _ (List.Mem.head _) sampleTodo hmem rfl⟩
